import Mathlib

/-!
Verification of `artemis/experiments/experiment_record.py` against its
natural-language specification.

The Python module is shallowly embedded: module-level mutable globals
(`_CURRENT_EXPERIMENT_ID`, `_CURRENT_EXPERIMENT_NAME`,
`_CURRENT_EXPERIMENT_RECORD`, the ambient test-mode flag, the per-record
persisted info stores) become fields of an explicit `ProcState`; Python
exceptions become an `Except` result carrying the state at the moment of the
raise (Python mutations made before a raise persist, so the error value
carries the state); the `@contextmanager`-based `record_experiment` is split
into its enter phase (up to the `yield`) and its exit phase (after the
`yield`), and — exactly as in CPython — the exit phase is *not* executed when
the `with`-body raises, because the generator has no `try/finally`.

Collaborators that live in other files of the repository (not shipped under
`src/`) are modelled from the spec and marked `Modelled from the spec:` in
their doc comments.
-/

/-- Python exceptions, as far as this module raises or propagates them:
`AssertionError msg` (a failed `assert`), `KeyError k` (missing mapping key),
`TypeError` (ill-typed operation), and a user exception of a given class
name ("kind") and message raised by the wrapped experiment function. -/
inductive PyExc where
  | assertionError (msg : String)
  | keyError (key : String)
  | typeError (msg : String)
  | userExc (kind : String) (msg : String)
deriving DecidableEq, Repr

/-- Values stored in a record's persisted info store: strings, naturals
(figure counts, the modelled run time), and lists of strings (`Notes`,
`Figures Generated`). -/
inductive IVal where
  | s (v : String)
  | nat (v : Nat)
  | strs (v : List String)
deriving DecidableEq, Repr

/-- One record's persisted info store: an ordered field-name → value mapping
(the on-disk `PersistentOrderedDict` of `info.pkl`). -/
abbrev Pod := List (String × IVal)

/-- Ordered-dict assignment `pod[k] = v`: replace in place if the key exists,
else append at the end (Python dict/OrderedDict update semantics). -/
def podSet (k : String) (v : IVal) : Pod → Pod
  | [] => [(k, v)]
  | (k', v') :: rest => if k' = k then (k, v) :: rest else (k', v') :: podSet k v rest

/-- Ordered-dict lookup `pod[k]`: `KeyError` on a missing key.
Modelled from the spec: `PersistentOrderedDict.__getitem__` lives in
`artemis.fileman.persistent_ordered_dict`, which is not under `src/`; spec
§4.3 says `get_info` "fails if the record or field does not exist". -/
def podGet (k : String) : Pod → Except PyExc IVal
  | [] => .error (.keyError k)
  | (k', v') :: rest => if k' = k then .ok v' else podGet k rest

/-- Generic ordered assoc-list assignment, used for maps keyed by directory
or by experiment name (same in-place-replace-or-append discipline). -/
def alistSet {α : Type} (k : String) (v : α) : List (String × α) → List (String × α)
  | [] => [(k, v)]
  | (k', v') :: rest => if k' = k then (k, v) :: rest else (k', v') :: alistSet k v rest

/-- Generic assoc-list lookup returning `Option`. -/
def alistGet {α : Type} (k : String) : List (String × α) → Option α
  | [] => none
  | (k', v') :: rest => if k' = k then some v' else alistGet k rest

/-- Outcome of calling the wrapped experiment function once: it either
returns a value or raises a user exception of some kind with some message.
The returned value is kept abstract as the string of its pickled bytes. -/
inductive Callable where
  | returns (v : String)
  | raises (kind : String) (msg : String)
deriving DecidableEq, Repr

/-- The `Experiment` object: name, wrapped callable (its one-call outcome),
the `Function`/`Module` info recorded at call time, the resolved final
arguments (`get_final_args` lives outside `src/`, so its result is carried
as a field), static `info` merged into every record, accumulated `_notes`,
and the `is_root` flag. -/
structure Experiment where
  name : String
  behavior : Callable
  functionName : String
  moduleName : String
  argsVal : IVal
  info : Pod
  notes : List String
  is_root : Bool
deriving DecidableEq, Repr

/-- The process-wide name → Experiment registry `GLOBAL_EXPERIMENT_LIBRARY`
(an `OrderedDict`). -/
abbrev Library := List (String × Experiment)

/-- Embeds `_register_experiment(experiment)`:
`GLOBAL_EXPERIMENT_LIBRARY[experiment.name] = experiment` — a plain dict
assignment, with no duplicate check. -/
def register_experiment (e : Experiment) (lib : Library) : Library :=
  alistSet e.name e lib

/-- Tail of `Experiment.__init__`: a non-root experiment self-registers into
the global library; a root experiment does not. Returns the constructed
experiment and the updated library. -/
def experiment_init (name : String) (behavior : Callable) (functionName moduleName : String)
    (argsVal : IVal) (info : Pod) (isRoot : Bool) (lib : Library) : Experiment × Library :=
  let e : Experiment := ⟨name, behavior, functionName, moduleName, argsVal, info, [], isRoot⟩
  (e, if isRoot then lib else register_experiment e lib)

/-- Lookup of `GLOBAL_EXPERIMENT_LIBRARY[name]` (`get_experiment`). -/
def get_experiment (name : String) (lib : Library) : Option Experiment :=
  alistGet name lib

/-! ## Identifier codec -/

/-- One decimal digit character (callers pass a value already reduced
mod 10). -/
def digitChar (n : Nat) : Char :=
  if n = 0 then '0' else if n = 1 then '1' else if n = 2 then '2' else if n = 3 then '3'
  else if n = 4 then '4' else if n = 5 then '5' else if n = 6 then '6' else if n = 7 then '7'
  else if n = 8 then '8' else '9'

/-- Zero-padded fixed-width decimal rendering: the low `w` decimal digits of
`n`, most significant first (for `n < 10 ^ w` this is ordinary
zero-padding). -/
def padNum : Nat → Nat → List Char
  | 0, _ => []
  | w + 1, n => padNum w (n / 10) ++ [digitChar (n % 10)]

/-- A `datetime.now()` value, to microsecond precision. -/
structure Timestamp where
  year : Nat
  month : Nat
  day : Nat
  hour : Nat
  minute : Nat
  second : Nat
  microsecond : Nat
deriving DecidableEq, Repr

/-- Field bounds under which the fixed-width rendering is the ordinary
decimal form of each field. -/
def Timestamp.Valid (t : Timestamp) : Prop :=
  t.year < 10000 ∧ t.month < 100 ∧ t.day < 100 ∧ t.hour < 100 ∧
    t.minute < 100 ∧ t.second < 100 ∧ t.microsecond < 1000000

instance : DecidablePred Timestamp.Valid := fun t => by
  unfold Timestamp.Valid; infer_instance

/-- Modelled from the spec: the timestamp rendering used by
`format_filename` (`artemis.fileman.local_dir`, which is not under `src/`).
Spec §4.1 prescribes "a fixed-width timestamp format
(`YYYY.MM.DD-HH.MM.SS.ffffff` precision to microseconds)" — note the `-`
between the date and the time. -/
def renderTimestampSpec (t : Timestamp) : List Char :=
  padNum 4 t.year ++ '.' :: (padNum 2 t.month ++ '.' :: (padNum 2 t.day ++
    '-' :: (padNum 2 t.hour ++ '.' :: (padNum 2 t.minute ++ '.' :: (padNum 2 t.second ++
    '.' :: padNum 6 t.microsecond)))))

/-- The same rendering with the ISO-8601 `T` between date and time — the
shape that the source's own lookup regex (its `\T`) requires of an
identifier. -/
def renderTimestampT (t : Timestamp) : List Char :=
  padNum 4 t.year ++ '.' :: (padNum 2 t.month ++ '.' :: (padNum 2 t.day ++
    'T' :: (padNum 2 t.hour ++ '.' :: (padNum 2 t.minute ++ '.' :: (padNum 2 t.second ++
    '.' :: padNum 6 t.microsecond)))))

/-- Worker for Python `str.replace(pat, rep)`: left-to-right,
non-overlapping, the replacement text is not rescanned.  The `skip` counter
carries the number of characters of a just-matched occurrence still to be
consumed without emission.  (An empty pattern never occurs here and is
treated as matching nothing.) -/
def replaceAllGo (pat rep : List Char) : Nat → List Char → List Char
  | _, [] => []
  | skip + 1, _ :: cs => replaceAllGo pat rep skip cs
  | 0, c :: cs =>
    if pat ≠ [] ∧ pat.isPrefixOf (c :: cs) then
      rep ++ replaceAllGo pat rep (pat.length - 1) cs
    else
      c :: replaceAllGo pat rep 0 cs

/-- Python `str.replace(pat, rep)` on `s`. -/
def replaceAll (pat rep s : List Char) : List Char := replaceAllGo pat rep 0 s

/-- Python 2 `re.escape`: ASCII alphanumerics and `_` are kept, the NUL
character becomes `\000`, every other character is backslash-prefixed. -/
def reEscapeChar (c : Char) : List Char :=
  if c.isAlphanum ∨ c = '_' then [c]
  else if c = Char.ofNat 0 then ['\\', '0', '0', '0']
  else ['\\', c]

def reEscape : List Char → List Char
  | [] => []
  | c :: cs => reEscapeChar c ++ reEscape cs

/-- The timestamp sub-pattern the source substitutes for `%T`:
`\d\d\d\d\.\d\d\.\d\d\T\d\d\.\d\d\.\d\d\.\d\d\d\d\d\d` (in Python 2 `re`,
the unknown escape `\T` matches a literal `T`). -/
def timestampPattern : List Char :=
  "\\d\\d\\d\\d\\.\\d\\d\\.\\d\\d\\T\\d\\d\\.\\d\\d\\.\\d\\d\\.\\d\\d\\d\\d\\d\\d".data

/-- Embeds `_get_matching_template_from_experiment_name(experiment_name, version,
template)`: append the version (if any) with a `-`, substitute the escaped
name for `%N` and the timestamp pattern for `%T`, and anchor with `^`/`$`. -/
def get_matching_template_from_experiment_name
    (experiment_name : List Char) (version : Option (List Char))
    (template : List Char) : List Char :=
  let experiment_name :=
    match version with
    | some v => experiment_name ++ '-' :: v
    | none => experiment_name
  let named_template := replaceAll ['%', 'N'] (reEscape experiment_name) template
  let expr := replaceAll ['%', 'T'] timestampPattern named_template
  '^' :: expr ++ ['$']

/-- Matcher for the fragment of Python 2 `re` syntax that
`get_matching_template_from_experiment_name` can emit: literal characters,
`^` (emitted only at the front) and `$` (only at the end), and backslash
escapes where `\d` is the ASCII digit class and any other `\c` matches `c`
literally.  `re.match` anchors at the start and allows trailing input, so an
exhausted pattern succeeds; the emitted `$` enforces the right anchor.  (The
Python quirk that `$` also matches just before a final newline is not
modelled; the validity predicate on names below excludes newlines, where the
two semantics agree.) -/
def patMatch : List Char → List Char → Bool
  | [], _ => true
  | p :: ps, s =>
    if p = '^' then patMatch ps s
    else if p = '$' then s.isEmpty && patMatch ps s
    else if p = '\\' then
      match ps, s with
      | q :: ps', c :: cs => (if q = 'd' then c.isDigit else c == q) && patMatch ps' cs
      | _, _ => false
    else
      match s with
      | c :: cs => (c == p) && patMatch ps cs
      | [] => false

/-- The default `'%T-%N'` identifier template. -/
def identifierTemplate : List Char := ['%', 'T', '-', '%', 'N']

/-- Modelled from the spec: `format_filename(file_string, base_name,
current_time)` (`artemis.fileman.local_dir`, not under `src/`) — "produce a
filesystem-safe identifier string by substituting `%T` with a fixed-width
timestamp format ... and `%N` with the base name" (spec §4.1), with the
spec's `-`-separated timestamp rendering. -/
def format_filename (template : List Char) (base_name : List Char) (t : Timestamp) : List Char :=
  replaceAll ['%', 'N'] base_name (replaceAll ['%', 'T'] (renderTimestampSpec t) template)

/-- The amended encoder: identical to `format_filename` except that the
timestamp carries the ISO `T` separator the source regex expects. -/
def format_filename_iso (template : List Char) (base_name : List Char) (t : Timestamp) : List Char :=
  replaceAll ['%', 'N'] base_name (replaceAll ['%', 'T'] (renderTimestampT t) template)

/-- Valid experiment-name characters: no `%` (which could collide with the
template placeholders during substitution), no NUL and no newline (the two
characters on which true Python 2 `re` behavior diverges from the matcher
fragment above). -/
def ValidNameChar (c : Char) : Prop := c ≠ '%' ∧ c ≠ Char.ofNat 0 ∧ c ≠ '\n'

instance : DecidablePred ValidNameChar := fun c => by
  unfold ValidNameChar; infer_instance

def ValidName (s : List Char) : Prop := ∀ c ∈ s, ValidNameChar c

instance : DecidablePred ValidName := fun s => by
  unfold ValidName; infer_instance

/-! ## Record store -/

/-- Modelled from the spec: `get_local_path` (`artemis.fileman.local_dir`,
not under `src/`) resolves a relative path inside the absolute on-disk
artemis home directory (`~/.artemis`). -/
def get_local_path (s : String) : String := "/root/.artemis/" ++ s

/-- Python `os.path.isabs`: a POSIX path is absolute when it starts with `/`. -/
def isAbsolutePath (s : String) : Bool :=
  match s.data with
  | '/' :: _ => true
  | _ => false

/-- One step of `os.path.join(a, b)`: an absolute second component discards
the first — the behavior `save_result`'s path computation relies on. -/
def osPathJoin (a b : String) : String :=
  if isAbsolutePath b then b else a ++ "/" ++ b

/-- Embeds `get_local_experiment_path(identifier)`. -/
def get_local_experiment_path (identifier : String) : String :=
  osPathJoin (get_local_path "experiments") identifier

/-- The pickled result artifacts on disk: a path → pickled-bytes map.
Pickling is external (`pickle`); a stored value is carried as the opaque
string of its bytes. -/
abbrev ResultStore := List (String × String)

/-- Embeds `ExperimentRecord.save_result(result)`: pickle to
`get_local_experiment_path(os.path.join(dir, 'result.pkl'))`, overwriting
any previous result. -/
def save_result (experiment_directory : String) (result : String) (fs : ResultStore) :
    ResultStore :=
  alistSet (get_local_experiment_path (osPathJoin experiment_directory "result.pkl")) result fs

/-- Embeds `ExperimentRecord.get_result()`: unpickle `dir/result.pkl` if the
artifact exists, else the `None` sentinel (`none`) — not an error. -/
def get_result (experiment_directory : String) (fs : ResultStore) : Option String :=
  alistGet (osPathJoin experiment_directory "result.pkl") fs

/-! ## Process state: Run Guard, record_experiment, Experiment.__call__, Experiment.run -/

/-- The module-level mutable state of one Python process:
`_CURRENT_EXPERIMENT_ID`, `_CURRENT_EXPERIMENT_NAME`,
`_CURRENT_EXPERIMENT_RECORD` (by its directory), the ambient test-mode flag
(`artemis.general.test_mode`), the number of entered console/figure capture
scopes not yet exited, the per-directory persisted info stores, and the
result artifacts on disk. -/
structure ProcState where
  currentExperimentId : Option String
  currentExperimentName : Option String
  currentExperimentRecord : Option String
  testMode : Bool
  openScopes : Nat
  infos : List (String × Pod)
  results : ResultStore
deriving DecidableEq, Repr

/-- The persisted info store of one record directory (a fresh store is
empty). -/
def getInfos (dir : String) (st : ProcState) : Pod := (alistGet dir st.infos).getD []

/-- Embeds `ExperimentRecord.add_info(field, data)`: upsert one field of this
record's persisted info store. -/
def add_info (dir field : String) (v : IVal) (st : ProcState) : ProcState :=
  { st with infos := alistSet dir (podSet field v (getInfos dir st)) st.infos }

/-- Embeds `ExperimentRecord.add_note(note)`:
`add_info('Notes', get_info('Notes') + [note])` — a read-extend-write of the
`Notes` field that raises `KeyError` if the field was never created and
`TypeError` if it does not hold a list. -/
def add_note (dir : String) (note : String) (st : ProcState) :
    Except (PyExc × ProcState) ProcState :=
  match podGet "Notes" (getInfos dir st) with
  | .error e => .error (e, st)
  | .ok (.strs ns) => .ok (add_info dir "Notes" (.strs (ns ++ [note])) st)
  | .ok _ => .error (.typeError "can only concatenate list", st)

/-- The `for n in self._notes: r.add_note(n)` loop: sequential, aborted by
the first raise. -/
def add_notes (dir : String) (notes : List String) (st : ProcState) :
    Except (PyExc × ProcState) ProcState :=
  match notes with
  | [] => .ok st
  | n :: rest =>
    match add_note dir n st with
    | .error err => .error err
    | .ok st' => add_notes dir rest st'

/-- Embeds `_register_current_experiment(name, identifier)`: `assert
_CURRENT_EXPERIMENT_ID is None` — the assertion message interpolates the
running identifier and then the new identifier — then set the two globals. -/
def register_current_experiment (name identifier : String) (st : ProcState) :
    Except (PyExc × ProcState) ProcState :=
  match st.currentExperimentId with
  | some cur =>
      .error (.assertionError ("You cannot start experiment '" ++ cur ++
        "' until experiment '" ++ identifier ++ "' has been stopped."), st)
  | none =>
      .ok { st with currentExperimentName := some name, currentExperimentId := some identifier }

/-- Embeds `_deregister_current_experiment()`: unconditionally clear both globals. -/
def deregister_current_experiment (st : ProcState) : ProcState :=
  { st with currentExperimentId := none, currentExperimentName := none }

/-- The enter phase of the `record_experiment` context manager (everything
up to and including the `yield`): format the identifier, choose the record
directory (a fresh temp directory — modelled by a distinguished `/tmp` path
— when `use_temp_dir`, else the persistent store), enter the
console-capture, figure-show and figure-save scopes, register the Run Guard,
set the current record and write its initial `Name`/`Identifier`/`Directory`
info fields. -/
def record_experiment_enter (name : String) (ts : Timestamp) (use_temp_dir : Bool)
    (st : ProcState) : Except (PyExc × ProcState) (String × ProcState) :=
  let identifier := String.mk (format_filename identifierTemplate name.data ts)
  let dir := if use_temp_dir then "/tmp/" ++ identifier
             else get_local_path ("experiments/" ++ identifier)
  let st1 := { st with openScopes := st.openScopes + 3 }
  match register_current_experiment name identifier st1 with
  | .error err => .error err
  | .ok st2 =>
    let st3 := { st2 with currentExperimentRecord := some dir }
    let st4 := add_info dir "Name" (.s name) st3
    let st5 := add_info dir "Identifier" (.s identifier) st4
    let st6 := add_info dir "Directory" (.s dir) st5
    .ok (dir, st6)

/-- The exit phase of `record_experiment` (everything after the `yield`):
drop the current record, exit the three capture scopes, deregister the Run
Guard.  Because the generator has no `try/finally`, this phase runs **only**
when the `with`-body returned normally. -/
def record_experiment_exit (st : ProcState) : ProcState :=
  let st1 := { st with currentExperimentRecord := none }
  let st2 := { st1 with openScopes := st1.openScopes - 3 }
  deregister_current_experiment st2

/-- Embeds `Experiment.__call__` for a base experiment function.  With a current
record in scope this is the recorded path: write `Args`/`Function`/`Module`,
run the callable inside `try/except/finally` (`Status` annotation and
re-raise on failure; figure counts, run time, static info fields and notes
in the `finally`, whose own raise would replace a pending exception);
without a current record, just call the function.  No figure files are
modelled (`get_figure_locs` returns `[]`) and wall-clock run time is
modelled as `0`. -/
def experiment_call (e : Experiment) (st : ProcState) :
    Except (PyExc × ProcState) (String × ProcState) :=
  match st.currentExperimentRecord with
  | none =>
    match e.behavior with
    | .returns v => .ok (v, st)
    | .raises k m => .error (.userExc k m, st)
  | some dir =>
    let st1 := add_info dir "Args" e.argsVal st
    let st2 := add_info dir "Function" (.s e.functionName) st1
    let st3 := add_info dir "Module" (.s e.moduleName) st2
    let bodyOut : Except PyExc String × ProcState :=
      match e.behavior with
      | .returns v => (.ok v, add_info dir "Status" (.s "Ran Successfully") st3)
      | .raises k m =>
          (.error (.userExc k m),
           add_info dir "Status" (.s ("Had an Error: " ++ k ++ ": " ++ m)) st3)
    let st4 := bodyOut.2
    let st5 := add_info dir "# Figures Generated" (.nat 0) st4
    let st6 := add_info dir "Figures Generated" (.strs []) st5
    let st7 := add_info dir "Run Time" (.nat 0) st6
    let st8 := e.info.foldl (fun s kv => add_info dir kv.1 kv.2 s) st7
    match add_notes dir e.notes st8 with
    | .error err => .error err
    | .ok st9 =>
      match bodyOut.1 with
      | .ok v => .ok (v, st9)
      | .error exc => .error (exc, st9)

/-- Embeds `Experiment.run`: resolve `test_mode` / `keep_record`, set the ambient
test-mode flag, run the wrapped call inside `record_experiment`, save the
result, restore the flag and return the record's directory.  The flag
restore and the context-manager exit phase sit exactly where the source puts
them: *after* the `with`-body, reached on the success path only.  (No
display function is configured in the runs modelled here.) -/
def experiment_run (e : Experiment) (test_mode keep_record : Option Bool) (ts : Timestamp)
    (st : ProcState) : Except (PyExc × ProcState) (String × ProcState) :=
  let testMode := test_mode.getD st.testMode
  let keepRecord := keep_record.getD (!testMode)
  let oldTestMode := st.testMode
  let st1 := { st with testMode := testMode }
  match record_experiment_enter e.name ts (!keepRecord) st1 with
  | .error err => .error err
  | .ok (dir, st2) =>
    match experiment_call e st2 with
    | .error err => .error err
    | .ok (results, st3) =>
      let st4 := record_experiment_exit st3
      let st5 := { st4 with results := save_result dir results st4.results }
      let st6 := { st5 with testMode := oldTestMode }
      .ok (dir, st6)

/-- The exception carried by a failed run, if any. -/
def runExc (r : Except (PyExc × ProcState) (String × ProcState)) : Option PyExc :=
  match r with
  | .error (e, _) => some e
  | .ok _ => none

/-- The process state a run leaves behind (on failure or success). -/
def runState (r : Except (PyExc × ProcState) (String × ProcState)) : ProcState :=
  match r with
  | .error (_, st) => st
  | .ok (_, st) => st

/-! ## Variant tree -/

/-- The variant tree that `add_variant` / `add_root_variant` build: an
experiment's name, its `is_root` flag and its ordered child variants. -/
inductive ExpTree where
  | node (name : String) (is_root : Bool) (variants : List ExpTree)

def ExpTree.name : ExpTree → String
  | .node n _ _ => n

mutual
/-- Embeds `Experiment.get_all_variants(include_roots)`: pre-order collection — the
node itself unless it is an excluded root, then every child's
`get_all_variants()`, each child recursing with the *default*
`include_roots=False`. -/
def get_all_variants (t : ExpTree) (include_roots : Bool) : List ExpTree :=
  match t with
  | .node n r vs =>
    (if !r || include_roots then [ExpTree.node n r vs] else []) ++ get_all_variants_list vs

/-- The `for name, v in self.variants.iteritems(): variants +=
v.get_all_variants()` loop. -/
def get_all_variants_list : List ExpTree → List ExpTree
  | [] => []
  | v :: rest => get_all_variants v false ++ get_all_variants_list rest
end

/-- Embeds `Experiment.run_all()`: run every experiment collected by
`get_all_variants()` sequentially — modelled as the list of experiment names
run, in order. -/
def run_all (t : ExpTree) : List String :=
  (get_all_variants t false).map ExpTree.name

/-! ## Fixtures: concrete inputs used by counterexamples and witnesses -/

/-- A concrete `datetime.now()` value. -/
def tsFix : Timestamp := ⟨2024, 1, 2, 3, 4, 5, 6⟩

/-- The idle process state: Run Guard clear, ambient test-mode off, no
scopes open, empty disk. -/
def stIdle : ProcState := ⟨none, none, none, false, 0, [], []⟩

/-- A base experiment whose wrapped function raises `ValueError('boom')`. -/
def exDemoFail : Experiment :=
  ⟨"demo", .raises "ValueError" "boom", "demo", "/m.py", .s "a=1",
    [("Root Experiment", .s "demo")], [], false⟩

/-- The same failing experiment after one `add_note('note1')` call. -/
def exDemoNote : Experiment :=
  ⟨"demo", .raises "ValueError" "boom", "demo", "/m.py", .s "a=1",
    [("Root Experiment", .s "demo")], ["note1"], false⟩

/-- A base experiment whose wrapped function returns normally. -/
def exDemoOk : Experiment :=
  ⟨"demo", .returns "42", "demo", "/m.py", .s "a=1",
    [("Root Experiment", .s "demo")], [], false⟩

/-- Two distinct experiments sharing the registered name `a`. -/
def exA1 : Experiment := ⟨"a", .returns "1", "f1", "/m.py", .s "", [], [], false⟩

def exA2 : Experiment := ⟨"a", .returns "2", "f2", "/m.py", .s "", [], [], false⟩

/-- A non-root parent with two non-root variants and one root variant. -/
def treeNonRootParent : ExpTree :=
  .node "p" false [.node "p.v1" false [], .node "p.v2" false [], .node "p.r" true []]

/-- The repeated-`\d` block of the timestamp pattern, used to state the
digit-consumption lemma. -/
def dPat : Nat → List Char
  | 0 => []
  | w + 1 => '\\' :: 'd' :: dPat w

/-- A process state in which a run is already active: the Run Guard holds
the old run's identifier and name. -/
def stActive : ProcState :=
  { stIdle with currentExperimentId := some "2024.01.01T00.00.00.000000-old",
                currentExperimentName := some "old" }

/-! ## Store lemmas -/

theorem alistGet_alistSet_self {α : Type} (k : String) (v : α) :
    ∀ l : List (String × α), alistGet k (alistSet k v l) = some v
  | [] => by simp [alistSet, alistGet]
  | (k', v') :: rest => by
    by_cases h : k' = k
    · simp [alistSet, alistGet, h]
    · simp [alistSet, alistGet, h, alistGet_alistSet_self k v rest]

theorem alistGet_alistSet_ne {α : Type} (k k2 : String) (v : α) (h : k ≠ k2) :
    ∀ l : List (String × α), alistGet k2 (alistSet k v l) = alistGet k2 l
  | [] => by simp [alistSet, alistGet, h]
  | (k', v') :: rest => by
    by_cases h' : k' = k
    · subst h'; simp [alistSet, alistGet, h]
    · simp [alistSet, alistGet, h', alistGet_alistSet_ne k k2 v h rest]

theorem alistGet_eq_none_of_forall_ne {α : Type} (k : String) :
    ∀ l : List (String × α), (∀ p ∈ l, p.1 ≠ k) → alistGet k l = none
  | [] => by simp [alistGet]
  | (k', v') :: rest => by
    intro h
    have hk : k' ≠ k := h (k', v') (by simp)
    simp only [alistGet, hk, if_neg hk]
    exact alistGet_eq_none_of_forall_ne k rest fun p hp => h p (by simp [hp])

theorem podGet_podSet_self (k : String) (v : IVal) :
    ∀ p : Pod, podGet k (podSet k v p) = .ok v
  | [] => by simp [podSet, podGet]
  | (k', v') :: rest => by
    by_cases h : k' = k
    · simp [podSet, podGet, h]
    · simp [podSet, podGet, h, podGet_podSet_self k v rest]

theorem podGet_podSet_ne (k k2 : String) (v : IVal) (h : k ≠ k2) :
    ∀ p : Pod, podGet k2 (podSet k v p) = podGet k2 p
  | [] => by simp [podSet, podGet, h]
  | (k', v') :: rest => by
    by_cases h' : k' = k
    · subst h'; simp [podSet, podGet, h]
    · simp [podSet, podGet, h', podGet_podSet_ne k k2 v h rest]

theorem podGet_eq_error_of_not_mem (k : String) :
    ∀ p : Pod, k ∉ p.map Prod.fst → podGet k p = .error (.keyError k)
  | [] => by simp [podGet]
  | (k', v') :: rest => by
    intro h
    simp only [List.map_cons, List.mem_cons] at h
    push_neg at h
    have hk : k' ≠ k := fun hh => h.1 hh.symm
    simp only [podGet, if_neg hk]
    exact podGet_eq_error_of_not_mem k rest h.2

/-! ## C3: registry registration -/

/-- C3 counterexample: registering the name `a` twice does not fail with a
duplicate-name error — the registration is a total dict assignment and the
second call silently replaces the first binding. -/
theorem c3_counterexample_duplicate_registration_overwrites :
    get_experiment "a" (register_experiment exA2 (register_experiment exA1 [])) = some exA2 ∧
      exA2 ≠ exA1 := by
  constructor
  · rfl
  · decide

/-- C3 (amended): for distinct non-root names both registrations succeed and
both experiments are retrievable; registering the same name twice does not
fail — the later registration silently overwrites the earlier one
(last-write-wins), with no duplicate-name error. -/
theorem c3_register_distinct_ok_same_name_overwrites (e1 e2 : Experiment) (lib : Library) :
    (e1.name ≠ e2.name →
      get_experiment e1.name (register_experiment e2 (register_experiment e1 lib)) = some e1 ∧
      get_experiment e2.name (register_experiment e2 (register_experiment e1 lib)) = some e2) ∧
    (e1.name = e2.name →
      get_experiment e1.name (register_experiment e2 (register_experiment e1 lib)) = some e2) := by
  constructor
  · intro hne
    constructor
    · unfold get_experiment register_experiment
      rw [alistGet_alistSet_ne e2.name e1.name e2 (fun hh => hne hh.symm)]
      exact alistGet_alistSet_self e1.name e1 lib
    · unfold get_experiment register_experiment
      exact alistGet_alistSet_self e2.name e2 _
  · intro heq
    unfold get_experiment register_experiment
    rw [heq]
    exact alistGet_alistSet_self e2.name e2 _

/-- C3 witness: the amended theorem applied at two concrete distinct names
and at one concrete repeated name. -/
theorem c3_register_witness :
    (exA1.name = exDemoOk.name → False) ∧ exA1.name = exA2.name ∧
    (get_experiment exA1.name (register_experiment exDemoOk (register_experiment exA1 [])) =
        some exA1 ∧
      get_experiment exDemoOk.name
          (register_experiment exDemoOk (register_experiment exA1 [])) = some exDemoOk) ∧
    get_experiment exA1.name (register_experiment exA2 (register_experiment exA1 [])) =
      some exA2 :=
  ⟨by decide, by decide,
    (c3_register_distinct_ok_same_name_overwrites exA1 exDemoOk []).1 (by decide),
    (c3_register_distinct_ok_same_name_overwrites exA1 exA2 []).2 (by decide)⟩

/-! ## C9: run_all over the variant tree -/

theorem get_all_variants_list_leaves (cs : List (String × Bool)) :
    get_all_variants_list (cs.map fun c => ExpTree.node c.1 c.2 []) =
      (cs.filter fun c => !c.2).map fun c => ExpTree.node c.1 c.2 [] := by
  induction cs with
  | nil => simp [get_all_variants_list]
  | cons hd tl ih =>
    obtain ⟨n, r⟩ := hd
    cases r
    · simp [get_all_variants_list, get_all_variants, ih, List.filter]
    · simp [get_all_variants_list, get_all_variants, ih, List.filter]

/-- C9 counterexample: on a NON-root parent `p` with two non-root variants
and one root variant, `run_all()` runs three experiments — the parent `p`
itself as well — so it does not run "exactly the two non-root variants". -/
theorem c9_counterexample_non_root_parent_also_runs :
    run_all treeNonRootParent = ["p", "p.v1", "p.v2"] ∧
      (run_all treeNonRootParent).length ≠ 2 := by
  constructor
  · rfl
  · decide

/-- C9 (amended): on a ROOT parent whose variants are leaves, `run_all()`
runs exactly the non-root variants, in declaration order — in particular,
with two non-root variants and one root variant it runs exactly the two
non-root variants and never the root variant (nor the parent). -/
theorem c9_run_all_root_parent_runs_non_root_variants (pn : String)
    (cs : List (String × Bool)) :
    run_all (ExpTree.node pn true (cs.map fun c => ExpTree.node c.1 c.2 [])) =
      (cs.filter fun c => !c.2).map Prod.fst := by
  unfold run_all
  rw [show get_all_variants (ExpTree.node pn true (cs.map fun c => ExpTree.node c.1 c.2 []))
        false =
      get_all_variants_list (cs.map fun c => ExpTree.node c.1 c.2 []) from by
    simp [get_all_variants]]
  rw [get_all_variants_list_leaves]
  simp [ExpTree.name, List.map_map, Function.comp]

/-! ## C7: save_result / get_result round trip -/

theorem isAbsolutePath_append (a b : String) (h : isAbsolutePath a = true) :
    isAbsolutePath (a ++ b) = true := by
  unfold isAbsolutePath at *
  rcases ha : a.data with _ | ⟨c, rest⟩
  · rw [ha] at h; simp at h
  · rw [ha] at h
    have : (a ++ b).data = a.data ++ b.data := String.data_append a b
    rw [this, ha]
    by_cases hc : c = '/'
    · simp_all
    · simp_all

/-- C7: on an absolute record directory, `save_result(v)` followed by
`get_result()` returns exactly `v`; and on a store where the record's
result artifact was never written, `get_result()` returns the `None`
sentinel rather than raising. -/
theorem c7_save_result_get_result_roundtrip (dir v : String) (fs : ResultStore)
    (habs : isAbsolutePath dir = true) :
    get_result dir (save_result dir v fs) = some v ∧
      ((∀ p ∈ fs, p.1 ≠ osPathJoin dir "result.pkl") → get_result dir fs = none) := by
  constructor
  · unfold get_result save_result get_local_experiment_path
    have hjoin : osPathJoin dir "result.pkl" = dir ++ "/" ++ "result.pkl" := by
      unfold osPathJoin
      rw [if_neg (by decide)]
    have habs2 : isAbsolutePath (dir ++ "/" ++ "result.pkl") = true :=
      isAbsolutePath_append _ _ (isAbsolutePath_append _ _ habs)
    rw [hjoin]
    rw [show osPathJoin (get_local_path "experiments") (dir ++ "/" ++ "result.pkl") =
        dir ++ "/" ++ "result.pkl" from by unfold osPathJoin; rw [if_pos habs2]]
    exact alistGet_alistSet_self _ _ _
  · intro hfresh
    unfold get_result
    exact alistGet_eq_none_of_forall_ne _ _ hfresh

/-- C7 witness: the round trip at a concrete absolute directory, value and
fresh store. -/
theorem c7_save_result_witness :
    isAbsolutePath "/root/.artemis/experiments/x" = true ∧
    (get_result "/root/.artemis/experiments/x"
        (save_result "/root/.artemis/experiments/x" "payload" []) = some "payload" ∧
      ((∀ p ∈ ([] : ResultStore),
          p.1 ≠ osPathJoin "/root/.artemis/experiments/x" "result.pkl") →
        get_result "/root/.artemis/experiments/x" ([] : ResultStore) = none)) :=
  ⟨by decide, c7_save_result_get_result_roundtrip "/root/.artemis/experiments/x" "payload" []
    (by decide)⟩

/-! ## C1: Run Guard blocks a second run -/

/-- C1: starting a run while another is active fails immediately and
fatally (a failed `assert`), the assertion message names both the running
identifier and the newly blocked identifier, and no record's persisted info
store is mutated by the failed attempt. -/
theorem c1_second_run_fails_without_record_mutation (e : Experiment) (tm kr : Option Bool)
    (ts : Timestamp) (st : ProcState) (cur : String)
    (h : st.currentExperimentId = some cur) :
    ∃ u v w st',
      experiment_run e tm kr ts st =
        .error (.assertionError (u ++ cur ++ v ++
          String.mk (format_filename identifierTemplate e.name.data ts) ++ w), st') ∧
      st'.infos = st.infos := by
  refine ⟨"You cannot start experiment '", "' until experiment '", "' has been stopped.",
    { st with testMode := tm.getD st.testMode, openScopes := st.openScopes + 3 }, ?_, rfl⟩
  unfold experiment_run record_experiment_enter register_current_experiment
  simp only [h]

/-! ## C2 / C8: cleanup is skipped when the wrapped callable raises -/

/-- C2 (code bug): a run whose wrapped callable raises propagates the
user's exception, but the Run Guard is NOT cleared — the current experiment
identifier, name and record are all still set afterwards, and the three
capture scopes are still open, because `record_experiment`'s cleanup after
its `yield` has no `try/finally` and is skipped on the exception path. -/
theorem c2_run_guard_not_cleared_when_callable_raises :
    runExc (experiment_run exDemoFail (some false) (some true) tsFix stIdle) =
      some (.userExc "ValueError" "boom") ∧
    (runState (experiment_run exDemoFail (some false) (some true) tsFix stIdle)).currentExperimentId =
      some "2024.01.02-03.04.05.000006-demo" ∧
    (runState (experiment_run exDemoFail (some false) (some true) tsFix stIdle)).currentExperimentName =
      some "demo" ∧
    (runState (experiment_run exDemoFail (some false) (some true) tsFix stIdle)).currentExperimentRecord =
      some "/root/.artemis/experiments/2024.01.02-03.04.05.000006-demo" ∧
    (runState (experiment_run exDemoFail (some false) (some true) tsFix stIdle)).openScopes = 3 := by
  refine ⟨?_, ?_, ?_, ?_, ?_⟩ <;> decide

/-- C2 contrast: on the success path the exit phase does run and the Run
Guard is cleared. -/
theorem run_guard_cleared_on_success :
    (runState (experiment_run exDemoOk (some false) (some true) tsFix stIdle)).currentExperimentId =
      none ∧
    (runState (experiment_run exDemoOk (some false) (some true) tsFix stIdle)).currentExperimentName =
      none ∧
    (runState (experiment_run exDemoOk (some false) (some true) tsFix stIdle)).openScopes = 0 := by
  refine ⟨?_, ?_, ?_⟩ <;> rfl

/-- C8 (code bug): `Experiment.run` restores the prior ambient test-mode
flag with a plain statement after the `with`-block rather than a guaranteed
(`finally`-style) restore, so when the wrapped callable raises, the flag
stays at the run's value instead of reverting: here the prior flag was
`false`, the run set it to `true`, and after the failed run it is still
`true`. -/
theorem c8_test_mode_not_restored_when_callable_raises :
    stIdle.testMode = false ∧
    runExc (experiment_run exDemoFail (some true) (some true) tsFix stIdle) =
      some (.userExc "ValueError" "boom") ∧
    (runState (experiment_run exDemoFail (some true) (some true) tsFix stIdle)).testMode = true := by
  refine ⟨rfl, ?_, ?_⟩ <;> rfl

/-! ## Info-store lemmas for runs -/

@[simp] theorem add_info_currentExperimentRecord (dir f : String) (v : IVal) (st : ProcState) :
    (add_info dir f v st).currentExperimentRecord = st.currentExperimentRecord := rfl

@[simp] theorem add_info_currentExperimentId (dir f : String) (v : IVal) (st : ProcState) :
    (add_info dir f v st).currentExperimentId = st.currentExperimentId := rfl

@[simp] theorem add_info_currentExperimentName (dir f : String) (v : IVal) (st : ProcState) :
    (add_info dir f v st).currentExperimentName = st.currentExperimentName := rfl

@[simp] theorem add_info_testMode (dir f : String) (v : IVal) (st : ProcState) :
    (add_info dir f v st).testMode = st.testMode := rfl

theorem getInfos_add_info_self (dir f : String) (v : IVal) (st : ProcState) :
    getInfos dir (add_info dir f v st) = podSet f v (getInfos dir st) := by
  simp [getInfos, add_info, alistGet_alistSet_self]

theorem getInfos_foldl_add_info (dir : String) (l : Pod) :
    ∀ st : ProcState, getInfos dir (l.foldl (fun s kv => add_info dir kv.1 kv.2 s) st) =
      l.foldl (fun p kv => podSet kv.1 kv.2 p) (getInfos dir st) := by
  induction l with
  | nil => intro st; simp
  | cons hd tl ih =>
    intro st
    simp only [List.foldl_cons]
    rw [ih, getInfos_add_info_self]

theorem foldl_add_info_currentExperimentRecord (dir : String) (l : Pod) :
    ∀ st : ProcState,
      ((l.foldl (fun s kv => add_info dir kv.1 kv.2 s) st)).currentExperimentRecord =
        st.currentExperimentRecord := by
  induction l with
  | nil => intro st; simp
  | cons hd tl ih =>
    intro st
    simp only [List.foldl_cons]
    rw [ih]
    simp

theorem podGet_foldl_podSet_ne (key : String) (l : Pod) (h : key ∉ l.map Prod.fst) :
    ∀ p : Pod, podGet key (l.foldl (fun p kv => podSet kv.1 kv.2 p) p) = podGet key p := by
  induction l with
  | nil => intro p; simp
  | cons hd tl ih =>
    intro p
    simp only [List.map_cons, List.mem_cons] at h
    push_neg at h
    simp only [List.foldl_cons]
    rw [ih h.2, podGet_podSet_ne hd.1 key hd.2 (fun hh => h.1 hh.symm)]

/-- When the Run Guard is idle, `record_experiment`'s enter phase succeeds: the register
step succeeds and the three initial info fields are written. -/
theorem record_experiment_enter_idle (name : String) (ts : Timestamp) (utd : Bool)
    (st : ProcState) (h : st.currentExperimentId = none) :
    record_experiment_enter name ts utd st =
      (let identifier := String.mk (format_filename identifierTemplate name.data ts)
       let dir := if utd then "/tmp/" ++ identifier
                  else get_local_path ("experiments/" ++ identifier)
       let st1 : ProcState :=
         { st with openScopes := st.openScopes + 3,
                   currentExperimentName := some name,
                   currentExperimentId :=
                     some (String.mk (format_filename identifierTemplate name.data ts)),
                   currentExperimentRecord := some dir }
       .ok (dir, add_info dir "Directory" (.s dir)
         (add_info dir "Identifier" (.s identifier) (add_info dir "Name" (.s name) st1)))) := by
  unfold record_experiment_enter register_current_experiment
  simp only [h]

/-! ## C6: Status annotation and exception propagation -/

/-- C6 counterexample: for a run of an experiment that has one accumulated
note, the wrapped callable's `ValueError` does NOT propagate to the caller —
the `finally` block's `add_note` raises `KeyError('Notes')` (the field is
never initialized), and that exception replaces the user's. -/
theorem c6_counterexample_note_replaces_user_exception :
    exDemoNote.notes ≠ [] ∧
    runExc (experiment_run exDemoNote (some false) (some true) tsFix stIdle) =
      some (.keyError "Notes") ∧
    runExc (experiment_run exDemoNote (some false) (some true) tsFix stIdle) ≠
      some (.userExc "ValueError" "boom") := by
  refine ⟨?_, ?_, ?_⟩ <;> decide

/-- C6 (amended): for every run of an experiment with **no accumulated
notes** whose wrapped callable raises, the record's `Status` info field is
`Had an Error: <kind>: <message>` and the user's exception propagates
unchanged to the caller of `run`. -/
theorem c6_status_annotated_and_exception_propagates (e : Experiment) (k m : String)
    (tm kr : Option Bool) (ts : Timestamp) (st : ProcState)
    (hb : e.behavior = .raises k m) (hn : e.notes = [])
    (hidle : st.currentExperimentId = none)
    (hstatus : "Status" ∉ e.info.map Prod.fst) :
    ∃ st',
      experiment_run e tm kr ts st = .error (.userExc k m, st') ∧
      st'.currentExperimentRecord ≠ none ∧
      ∀ dir, st'.currentExperimentRecord = some dir →
        podGet "Status" (getInfos dir st') = .ok (.s ("Had an Error: " ++ k ++ ": " ++ m)) := by
  unfold experiment_run
  have hidle' : ({ st with testMode := tm.getD st.testMode } : ProcState).currentExperimentId =
      none := hidle
  simp only [record_experiment_enter_idle _ _ _ _ hidle']
  unfold experiment_call
  simp only [add_info_currentExperimentRecord]
  simp only [hb, hn, add_notes]
  refine ⟨_, rfl, ?_, ?_⟩
  · simp only [foldl_add_info_currentExperimentRecord, add_info_currentExperimentRecord]
    simp
  · intro dir hdirEq
    simp only [foldl_add_info_currentExperimentRecord, add_info_currentExperimentRecord] at hdirEq
    rw [Option.some_inj] at hdirEq
    rw [← hdirEq]
    rw [getInfos_foldl_add_info, podGet_foldl_podSet_ne "Status" e.info hstatus]
    rw [getInfos_add_info_self, podGet_podSet_ne "Run Time" "Status" (.nat 0) (by decide)]
    rw [getInfos_add_info_self,
      podGet_podSet_ne "Figures Generated" "Status" (.strs []) (by decide)]
    rw [getInfos_add_info_self,
      podGet_podSet_ne "# Figures Generated" "Status" (.nat 0) (by decide)]
    rw [getInfos_add_info_self, podGet_podSet_self]

/-- C6 witness: the amended theorem at a concrete failing experiment with
no notes, from the idle state. -/
theorem c6_status_witness :
    exDemoFail.behavior = .raises "ValueError" "boom" ∧ exDemoFail.notes = [] ∧
    stIdle.currentExperimentId = none ∧ "Status" ∉ exDemoFail.info.map Prod.fst ∧
    (∃ st',
      experiment_run exDemoFail (some false) (some true) tsFix stIdle =
        .error (.userExc "ValueError" "boom", st') ∧
      st'.currentExperimentRecord ≠ none ∧
      ∀ dir, st'.currentExperimentRecord = some dir →
        podGet "Status" (getInfos dir st') =
          .ok (.s ("Had an Error: " ++ "ValueError" ++ ": " ++ "boom"))) :=
  ⟨rfl, rfl, rfl, by decide,
    c6_status_annotated_and_exception_propagates exDemoFail "ValueError" "boom"
      (some false) (some true) tsFix stIdle rfl rfl rfl (by decide)⟩

/-! ## C10: add_note on a record without a Notes field -/

theorem add_note_no_field (dir note : String) (st : ProcState)
    (h : podGet "Notes" (getInfos dir st) = .error (.keyError "Notes")) :
    add_note dir note st = .error (.keyError "Notes", st) := by
  unfold add_note
  rw [h]

/-- C10: (i) `add_note` on a record whose info store has no `Notes` field
raises `KeyError('Notes')` rather than creating the field, leaving the state
unchanged; and (ii) since a run never initializes a `Notes` field, the
note-appending step of the run's `finally` block fails with
`KeyError('Notes')` for every experiment that has at least one note —
whether the wrapped callable returns or raises. -/
theorem c10_run_with_notes_fails_keyerror :
    (∀ (dir note : String) (st : ProcState),
      "Notes" ∉ (getInfos dir st).map Prod.fst →
        add_note dir note st = .error (.keyError "Notes", st)) ∧
    (∀ (e : Experiment) (tm kr : Option Bool) (ts : Timestamp) (st : ProcState),
      st.currentExperimentId = none → st.infos = [] →
      e.notes ≠ [] → "Notes" ∉ e.info.map Prod.fst →
        runExc (experiment_run e tm kr ts st) = some (.keyError "Notes")) := by
  constructor
  · intro dir note st h
    exact add_note_no_field dir note st (podGet_eq_error_of_not_mem "Notes" _ h)
  · intro e tm kr ts st hidle hfresh hnotes hinfo
    obtain ⟨n, rest, hcons⟩ := List.exists_cons_of_ne_nil hnotes
    unfold experiment_run
    have hidle' : ({ st with testMode := tm.getD st.testMode } : ProcState).currentExperimentId =
        none := hidle
    simp only [record_experiment_enter_idle _ _ _ _ hidle']
    unfold experiment_call
    simp only [add_info_currentExperimentRecord]
    cases hbeh : e.behavior with
    | returns v =>
      simp only [hcons, add_notes]
      rw [add_note_no_field]
      · rfl
      · rw [getInfos_foldl_add_info, podGet_foldl_podSet_ne "Notes" e.info hinfo]
        rw [getInfos_add_info_self, podGet_podSet_ne "Run Time" "Notes" _ (by decide)]
        rw [getInfos_add_info_self, podGet_podSet_ne "Figures Generated" "Notes" _ (by decide)]
        rw [getInfos_add_info_self, podGet_podSet_ne "# Figures Generated" "Notes" _ (by decide)]
        rw [getInfos_add_info_self, podGet_podSet_ne "Status" "Notes" _ (by decide)]
        rw [getInfos_add_info_self, podGet_podSet_ne "Module" "Notes" _ (by decide)]
        rw [getInfos_add_info_self, podGet_podSet_ne "Function" "Notes" _ (by decide)]
        rw [getInfos_add_info_self, podGet_podSet_ne "Args" "Notes" _ (by decide)]
        rw [getInfos_add_info_self, podGet_podSet_ne "Directory" "Notes" _ (by decide)]
        rw [getInfos_add_info_self, podGet_podSet_ne "Identifier" "Notes" _ (by decide)]
        rw [getInfos_add_info_self, podGet_podSet_ne "Name" "Notes" _ (by decide)]
        simp [getInfos, hfresh, alistGet, podGet]
    | raises k m =>
      simp only [hcons, add_notes]
      rw [add_note_no_field]
      · rfl
      · rw [getInfos_foldl_add_info, podGet_foldl_podSet_ne "Notes" e.info hinfo]
        rw [getInfos_add_info_self, podGet_podSet_ne "Run Time" "Notes" _ (by decide)]
        rw [getInfos_add_info_self, podGet_podSet_ne "Figures Generated" "Notes" _ (by decide)]
        rw [getInfos_add_info_self, podGet_podSet_ne "# Figures Generated" "Notes" _ (by decide)]
        rw [getInfos_add_info_self, podGet_podSet_ne "Status" "Notes" _ (by decide)]
        rw [getInfos_add_info_self, podGet_podSet_ne "Module" "Notes" _ (by decide)]
        rw [getInfos_add_info_self, podGet_podSet_ne "Function" "Notes" _ (by decide)]
        rw [getInfos_add_info_self, podGet_podSet_ne "Args" "Notes" _ (by decide)]
        rw [getInfos_add_info_self, podGet_podSet_ne "Directory" "Notes" _ (by decide)]
        rw [getInfos_add_info_self, podGet_podSet_ne "Identifier" "Notes" _ (by decide)]
        rw [getInfos_add_info_self, podGet_podSet_ne "Name" "Notes" _ (by decide)]
        simp [getInfos, hfresh, alistGet, podGet]

/-- C10 witness: both parts at concrete inputs — a record with an empty
info store, and the concrete noted experiment run from the idle state. -/
theorem c10_add_note_witness :
    ("Notes" ∉ (getInfos "/d" stIdle).map Prod.fst ∧
      add_note "/d" "a note" stIdle = .error (.keyError "Notes", stIdle)) ∧
    (stIdle.currentExperimentId = none ∧ stIdle.infos = [] ∧ exDemoNote.notes ≠ [] ∧
      "Notes" ∉ exDemoNote.info.map Prod.fst ∧
      runExc (experiment_run exDemoNote (some false) (some true) tsFix stIdle) =
        some (.keyError "Notes")) :=
  ⟨⟨by decide,
    c10_run_with_notes_fails_keyerror.1 "/d" "a note" stIdle (by decide)⟩,
    ⟨rfl, rfl, by decide, by decide,
      c10_run_with_notes_fails_keyerror.2 exDemoNote (some false) (some true) tsFix stIdle
        rfl rfl (by decide) (by decide)⟩⟩

/-! ## Codec lemmas -/

theorem digitChar_isDigit (n : Nat) : (digitChar n).isDigit = true := by
  unfold digitChar
  split_ifs <;> decide

theorem padNum_length (w : Nat) : ∀ n : Nat, (padNum w n).length = w := by
  induction w with
  | zero => intro n; simp [padNum]
  | succ w ih => intro n; simp [padNum, ih]

theorem padNum_isDigit (w : Nat) : ∀ n : Nat, ∀ c ∈ padNum w n, c.isDigit = true := by
  induction w with
  | zero => intro n c hc; simp [padNum] at hc
  | succ w ih =>
    intro n c hc
    simp only [padNum, List.mem_append, List.mem_singleton] at hc
    rcases hc with hc | hc
    · exact ih (n / 10) c hc
    · rw [hc]; exact digitChar_isDigit (n % 10)

theorem patMatch_caret (ps s : List Char) : patMatch ('^' :: ps) s = patMatch ps s := by
  rcases ps with _ | ⟨p2, ps⟩ <;> rcases s with _ | ⟨c, cs⟩ <;> simp [patMatch]

theorem patMatch_backslash_cons (q : Char) (ps : List Char) (c : Char) (cs : List Char) :
    patMatch ('\\' :: q :: ps) (c :: cs) =
      ((if q = 'd' then c.isDigit else c == q) && patMatch ps cs) := by
  simp [patMatch]

theorem patMatch_backslash_nil (q : Char) (ps : List Char) :
    patMatch ('\\' :: q :: ps) [] = false := by
  simp [patMatch]

theorem patMatch_lit (p : Char) (h1 : p ≠ '^') (h2 : p ≠ '$') (h3 : p ≠ '\\')
    (ps : List Char) (c : Char) (cs : List Char) :
    patMatch (p :: ps) (c :: cs) = ((c == p) && patMatch ps cs) := by
  rcases ps with _ | ⟨p2, ps⟩ <;> simp [patMatch, h1, h2, h3]

theorem patMatch_lit_nil (p : Char) (h1 : p ≠ '^') (h2 : p ≠ '$') (h3 : p ≠ '\\')
    (ps : List Char) : patMatch (p :: ps) [] = false := by
  simp [patMatch, h1, h2, h3]

theorem patMatch_dPat (w : Nat) :
    ∀ ds : List Char, ds.length = w → (∀ c ∈ ds, c.isDigit = true) →
      ∀ ps s : List Char, patMatch (dPat w ++ ps) (ds ++ s) = patMatch ps s := by
  induction w with
  | zero =>
    intro ds hl _ ps s
    rw [List.length_eq_zero] at hl
    subst hl
    simp [dPat]
  | succ w ih =>
    intro ds hl hd ps s
    rcases ds with _ | ⟨c, cs⟩
    · simp at hl
    · simp only [dPat, List.cons_append, List.append_assoc]
      rw [patMatch_backslash_cons]
      rw [if_pos rfl, hd c (by simp)]
      simp only [Bool.true_and]
      exact ih cs (by simpa using hl) (fun x hx => hd x (by simp [hx])) ps s

theorem patMatch_padNum (w n : Nat) (ps s : List Char) :
    patMatch (dPat w ++ ps) (padNum w n ++ s) = patMatch ps s :=
  patMatch_dPat w (padNum w n) (padNum_length w n) (padNum_isDigit w n) ps s

theorem patMatch_esc_dot (ps s : List Char) :
    patMatch ('\\' :: '.' :: ps) ('.' :: s) = patMatch ps s := by
  rw [patMatch_backslash_cons]
  simp

theorem patMatch_esc_T (ps s : List Char) :
    patMatch ('\\' :: 'T' :: ps) ('T' :: s) = patMatch ps s := by
  rw [patMatch_backslash_cons]
  simp

theorem patMatch_dash (ps s : List Char) :
    patMatch ('-' :: ps) ('-' :: s) = patMatch ps s := by
  rw [patMatch_lit '-' (by decide) (by decide) (by decide)]
  simp

theorem patMatch_reEscapeChar_cons (c : Char) (hc : ValidNameChar c) (c2 : Char)
    (ps s : List Char) :
    patMatch (reEscapeChar c ++ ps) (c2 :: s) = ((c2 == c) && patMatch ps s) := by
  unfold reEscapeChar
  split_ifs with h1 h2
  · have hne1 : c ≠ '^' := fun h => absurd (h ▸ h1) (by decide)
    have hne2 : c ≠ '$' := fun h => absurd (h ▸ h1) (by decide)
    have hne3 : c ≠ '\\' := fun h => absurd (h ▸ h1) (by decide)
    simp only [List.cons_append, List.nil_append]
    exact patMatch_lit c hne1 hne2 hne3 ps c2 s
  · exact absurd h2 hc.2.1
  · have hd : c ≠ 'd' := by
      rintro rfl
      exact h1 (Or.inl (by decide))
    simp only [List.cons_append, List.nil_append]
    rw [patMatch_backslash_cons, if_neg hd]

theorem patMatch_reEscapeChar_nil (c : Char) (hc : ValidNameChar c) (ps : List Char) :
    patMatch (reEscapeChar c ++ ps) [] = false := by
  unfold reEscapeChar
  split_ifs with h1 h2
  · have hne1 : c ≠ '^' := fun h => absurd (h ▸ h1) (by decide)
    have hne2 : c ≠ '$' := fun h => absurd (h ▸ h1) (by decide)
    have hne3 : c ≠ '\\' := fun h => absurd (h ▸ h1) (by decide)
    simp only [List.cons_append, List.nil_append]
    exact patMatch_lit_nil c hne1 hne2 hne3 ps
  · exact absurd h2 hc.2.1
  · simp only [List.cons_append, List.nil_append]
    exact patMatch_backslash_nil c ps

theorem patMatch_reEscape_append (cs : List Char) (h : ValidName cs) :
    ∀ ps s : List Char, patMatch (reEscape cs ++ ps) (cs ++ s) = patMatch ps s := by
  induction cs with
  | nil => intro ps s; simp [reEscape]
  | cons c t ih =>
    intro ps s
    have hc : ValidNameChar c := h c (by simp)
    have ht : ValidName t := fun x hx => h x (by simp [hx])
    simp only [reEscape, List.cons_append, List.append_assoc]
    rw [patMatch_reEscapeChar_cons c hc]
    simp only [beq_self_eq_true, Bool.true_and]
    exact ih ht ps s

theorem patMatch_reEscape_dollar_ne (n1 : List Char) (h1 : ValidName n1) :
    ∀ n2 : List Char, ValidName n2 → n1 ≠ n2 →
      patMatch (reEscape n1 ++ ['$']) n2 = false := by
  induction n1 with
  | nil =>
    intro n2 h2 hne
    rcases n2 with _ | ⟨c, t⟩
    · exact absurd rfl hne
    · simp [reEscape, patMatch]
  | cons c t ih =>
    intro n2 h2 hne
    have hc : ValidNameChar c := h1 c (by simp)
    have ht : ValidName t := fun x hx => h1 x (by simp [hx])
    rcases n2 with _ | ⟨c2, t2⟩
    · simp only [reEscape, List.append_assoc]
      exact patMatch_reEscapeChar_nil c hc _
    · simp only [reEscape, List.append_assoc]
      rw [patMatch_reEscapeChar_cons c hc]
      by_cases hcc : c2 = c
      · subst hcc
        have hneq : t ≠ t2 := fun hh => hne (by rw [hh])
        simp only [beq_self_eq_true, Bool.true_and]
        exact ih ht t2 (fun x hx => h2 x (by simp [hx])) hneq
      · simp [hcc]

theorem replaceAllGo_no_percent_id (pt rep : List Char) (a : List Char) (ha : '%' ∉ a) :
    replaceAllGo ('%' :: pt) rep 0 a = a := by
  induction a with
  | nil => simp [replaceAllGo]
  | cons c t ih =>
    have hc : c ≠ '%' := fun hh => ha (by simp [hh])
    have hcond : ¬(('%' :: pt) ≠ [] ∧ ('%' :: pt).isPrefixOf (c :: t)) := by
      rintro ⟨-, hpre⟩
      simp [List.isPrefixOf] at hpre
      exact hc hpre.1.symm
    rw [replaceAllGo, if_neg hcond]
    rw [ih (fun hx => ha (by simp [hx]))]

theorem replaceAllGo_no_percent (pt rep : List Char) (a : List Char) (ha : '%' ∉ a)
    (b : List Char) :
    replaceAllGo ('%' :: pt) rep 0 (a ++ b) = a ++ replaceAllGo ('%' :: pt) rep 0 b := by
  induction a with
  | nil => simp
  | cons c t ih =>
    have hc : c ≠ '%' := fun hh => ha (by simp [hh])
    have hcond : ¬(('%' :: pt) ≠ [] ∧ ('%' :: pt).isPrefixOf (c :: (t ++ b))) := by
      rintro ⟨-, hpre⟩
      simp [List.isPrefixOf] at hpre
      exact hc hpre.1.symm
    simp only [List.cons_append]
    rw [replaceAllGo, if_neg hcond]
    rw [ih (fun hx => ha (by simp [hx]))]

theorem replaceAll_N_on_template (r : List Char) :
    replaceAll ['%', 'N'] r ['%', 'T', '-', '%', 'N'] = '%' :: 'T' :: '-' :: r := by
  simp [replaceAll, replaceAllGo, List.isPrefixOf]

theorem replaceAll_T_on_named (e : List Char) (he : '%' ∉ e) :
    replaceAll ['%', 'T'] timestampPattern ('%' :: 'T' :: '-' :: e) =
      timestampPattern ++ '-' :: e := by
  simp only [replaceAll]
  rw [replaceAllGo, if_pos ⟨by decide, by simp [List.isPrefixOf]⟩]
  simp only [List.length_cons, List.length_nil]
  rw [replaceAllGo]
  have hcond : ¬(('%' :: ['T']) ≠ [] ∧ ('%' :: ['T']).isPrefixOf ('-' :: e)) := by
    rintro ⟨-, hpre⟩
    simp [List.isPrefixOf] at hpre
  rw [replaceAllGo, if_neg hcond]
  rw [replaceAllGo_no_percent_id ['T'] timestampPattern e he]

theorem replaceAll_T_on_template (r : List Char) :
    replaceAll ['%', 'T'] r ['%', 'T', '-', '%', 'N'] = r ++ '-' :: '%' :: 'N' :: [] := by
  simp [replaceAll, replaceAllGo, List.isPrefixOf]

theorem replaceAll_N_after_render (name r : List Char) (hr : '%' ∉ r) :
    replaceAll ['%', 'N'] name (r ++ '-' :: '%' :: 'N' :: []) = r ++ '-' :: name := by
  simp only [replaceAll]
  rw [replaceAllGo_no_percent ['N'] name r hr]
  simp [replaceAllGo, List.isPrefixOf]

theorem not_percent_mem_padNum (w n : Nat) : '%' ∉ padNum w n := by
  intro h
  exact absurd (padNum_isDigit w n '%' h) (by decide)

theorem not_percent_renderT (t : Timestamp) : '%' ∉ renderTimestampT t := by
  intro h
  unfold renderTimestampT at h
  simp only [List.mem_append, List.mem_cons] at h
  rcases h with h | h | h | h | h | h | h | h | h | h | h | h | h
  all_goals first
    | exact not_percent_mem_padNum _ _ h
    | exact absurd h (by decide)

theorem not_percent_reEscape (name : List Char) (h : ValidName name) :
    '%' ∉ reEscape name := by
  induction name with
  | nil => simp [reEscape]
  | cons c t ih =>
    have hc : ValidNameChar c := h c (by simp)
    have ht : ValidName t := fun x hx => h x (by simp [hx])
    simp only [reEscape, List.mem_append]
    rintro (hm | hm)
    · unfold reEscapeChar at hm
      split_ifs at hm with h1 h2
      · rw [List.mem_singleton] at hm
        exact hc.1 hm.symm
      · exact absurd hm (by decide)
      · rcases List.mem_cons.mp hm with hm | hm
        · exact absurd hm (by decide)
        · rw [List.mem_singleton] at hm
          exact hc.1 hm.symm
    · exact ih ht hm

/-- The regex the source derives for a name under the default template, in
structured form. -/
theorem get_matching_template_closed (name : List Char) (hn : '%' ∉ reEscape name) :
    get_matching_template_from_experiment_name name none identifierTemplate =
      '^' :: (timestampPattern ++ '-' :: reEscape name) ++ ['$'] := by
  unfold get_matching_template_from_experiment_name identifierTemplate
  simp only
  rw [replaceAll_N_on_template, replaceAll_T_on_named _ hn]

/-- The amended encoder's identifier, in structured form. -/
theorem format_filename_iso_closed (name : List Char) (t : Timestamp) :
    format_filename_iso identifierTemplate name t = renderTimestampT t ++ '-' :: name := by
  unfold format_filename_iso identifierTemplate
  rw [replaceAll_T_on_template, replaceAll_N_after_render _ _ (not_percent_renderT t)]

theorem timestampPattern_structured :
    timestampPattern =
      dPat 4 ++ '\\' :: '.' :: (dPat 2 ++ '\\' :: '.' :: (dPat 2 ++ '\\' :: 'T' ::
        (dPat 2 ++ '\\' :: '.' :: (dPat 2 ++ '\\' :: '.' :: (dPat 2 ++ '\\' :: '.' ::
          dPat 6))))) := by
  decide

/-- The timestamp pattern consumes exactly a rendered (`T`-separated)
timestamp. -/
theorem patMatch_timestamp (t : Timestamp) (ps s : List Char) :
    patMatch (timestampPattern ++ ps) (renderTimestampT t ++ s) = patMatch ps s := by
  rw [timestampPattern_structured]
  unfold renderTimestampT
  simp only [List.append_assoc, List.cons_append]
  simp only [patMatch_padNum, patMatch_esc_dot, patMatch_esc_T]

/-! ## C4: encode-then-match round trip -/

/-- C4 counterexample: with the encoder modelled exactly from the spec's
words (timestamp `YYYY.MM.DD-HH.MM.SS.ffffff`, a `-` between date and time),
the identifier encoded for the valid pair (`foo`, `tsFix`) does NOT match
the regex the source derives for `foo` — the source regex demands a literal
`T` between the date and the time. -/
theorem c4_counterexample_spec_timestamp_separator :
    ValidName "foo".data ∧ tsFix.Valid ∧
    patMatch (get_matching_template_from_experiment_name "foo".data none identifierTemplate)
      (format_filename identifierTemplate "foo".data tsFix) = false := by
  refine ⟨by decide, by decide, ?_⟩
  decide

/-- C4 (amended): for every valid (name, timestamp) pair, encoding with the
`%T-%N` template — rendering the timestamp with the ISO `T` separator the
source regex expects — and then matching the derived regex against the
encoded identifier succeeds. -/
theorem c4_encode_then_match_succeeds (name : List Char) (t : Timestamp)
    (hn : ValidName name) (hv : t.Valid) :
    patMatch (get_matching_template_from_experiment_name name none identifierTemplate)
      (format_filename_iso identifierTemplate name t) = true := by
  rw [get_matching_template_closed name (not_percent_reEscape name hn)]
  rw [format_filename_iso_closed name t]
  simp only [List.cons_append, List.append_assoc]
  rw [patMatch_caret, patMatch_timestamp, patMatch_dash]
  have hfin := patMatch_reEscape_append name hn ['$'] []
  rw [List.append_nil] at hfin
  rw [hfin]
  decide

/-- C4 witness: the amended round trip at the concrete valid pair
(`foo`, `tsFix`). -/
theorem c4_encode_then_match_witness :
    ValidName "foo".data ∧ tsFix.Valid ∧
    patMatch (get_matching_template_from_experiment_name "foo".data none identifierTemplate)
      (format_filename_iso identifierTemplate "foo".data tsFix) = true :=
  ⟨by decide, by decide,
    c4_encode_then_match_succeeds "foo".data tsFix (by decide) (by decide)⟩

/-! ## C5: the regex is anchored and never cross-matches -/

/-- C5: the regex derived for a name is anchored at both ends (`^` first,
`$` last), and for every pair of distinct valid names — in particular one a
prefix of the other — it never matches an identifier encoded from the other
name. -/
theorem c5_anchored_regex_never_cross_matches (n1 n2 : List Char) (t : Timestamp)
    (h1 : ValidName n1) (h2 : ValidName n2) (hv : t.Valid) (hne : n1 ≠ n2) :
    (get_matching_template_from_experiment_name n1 none identifierTemplate).head? =
      some '^' ∧
    (get_matching_template_from_experiment_name n1 none identifierTemplate).getLast? =
      some '$' ∧
    patMatch (get_matching_template_from_experiment_name n1 none identifierTemplate)
      (format_filename_iso identifierTemplate n2 t) = false := by
  refine ⟨?_, ?_, ?_⟩
  · rw [get_matching_template_closed n1 (not_percent_reEscape n1 h1)]
    rfl
  · rw [get_matching_template_closed n1 (not_percent_reEscape n1 h1)]
    exact List.getLast?_concat _
  · rw [get_matching_template_closed n1 (not_percent_reEscape n1 h1)]
    rw [format_filename_iso_closed n2 t]
    simp only [List.cons_append, List.append_assoc]
    rw [patMatch_caret, patMatch_timestamp, patMatch_dash]
    exact patMatch_reEscape_dollar_ne n1 h1 n2 h2 hne

/-- C5 witness: the anchored regex for `foo` against the identifier encoded
from `foo2` (a strict extension of `foo`), and vice versa, at `tsFix`. -/
theorem c5_prefix_names_witness :
    ValidName "foo".data ∧ ValidName "foo2".data ∧ tsFix.Valid ∧ "foo".data ≠ "foo2".data ∧
    patMatch (get_matching_template_from_experiment_name "foo".data none identifierTemplate)
      (format_filename_iso identifierTemplate "foo2".data tsFix) = false ∧
    patMatch (get_matching_template_from_experiment_name "foo2".data none identifierTemplate)
      (format_filename_iso identifierTemplate "foo".data tsFix) = false :=
  ⟨by decide, by decide, by decide, by decide,
    (c5_anchored_regex_never_cross_matches "foo".data "foo2".data tsFix
      (by decide) (by decide) (by decide) (by decide)).2.2,
    (c5_anchored_regex_never_cross_matches "foo2".data "foo".data tsFix
      (by decide) (by decide) (by decide) (by decide)).2.2⟩

/-- C1 witness: the blocking theorem applied from a concrete active state —
the failed attempt's message and the untouched info stores. -/
theorem c1_second_run_blocked_witness :
    stActive.currentExperimentId = some "2024.01.01T00.00.00.000000-old" ∧
    (∃ u v w st',
      experiment_run exDemoFail none none tsFix stActive =
        .error (.assertionError (u ++ "2024.01.01T00.00.00.000000-old" ++ v ++
          String.mk (format_filename identifierTemplate exDemoFail.name.data tsFix) ++ w), st') ∧
      st'.infos = stActive.infos) :=
  ⟨rfl, c1_second_run_fails_without_record_mutation exDemoFail none none tsFix stActive
    "2024.01.01T00.00.00.000000-old" rfl⟩
